import Mathlib

/-!
Shallow embedding of the Google-Drive-to-YouTube uploader
(`config.py`, `models.py`, `tracker.py`, `notion_handler.py`,
`youtube_handler.py`, `processor.py`) and proofs of the spec claims.

The ledger (`tracker.py`'s `self.processed` Python dict keyed by Google
Drive file id) is modelled as an association list with unique-key update;
file persistence is modelled as an explicit `LedgerFile` value; the chunked
resumable upload loop is modelled over an explicit list of chunk outcomes.
-/

namespace Uploader

/-- `models.VideoFile`: a video file to be processed.  Python `Optional[str]`
fields become `Option String`; `upload_status` starts as `"pending"`. -/
structure VideoFile where
  id : String
  name : String
  size : Nat
  mime_type : String
  gdrive_link : String
  local_path : Option String := none
  youtube_id : Option String := none
  youtube_url : Option String := none
  upload_status : String := "pending"
  error_message : Option String := none
  processed_date : Option String := none
  deriving DecidableEq, Repr

/-- One value of the `tracker.py` ledger dict: the record written by
`ProcessedFilesTracker.mark_processed` (tracker.py lines 81-89). -/
structure LedgerEntry where
  name : String
  size : Nat
  youtube_id : Option String
  youtube_url : Option String
  processed_date : String
  status : String
  error_message : Option String
  deriving DecidableEq, Repr

/-- The ledger dict `self.processed`, keyed by Google Drive file id. -/
abbrev Ledger := List (String × LedgerEntry)

/-- Python dict lookup `self.processed.get(file_id)`. -/
def findEntry : Ledger → String → Option LedgerEntry
  | [], _ => none
  | (k, e) :: rest, id => if k = id then some e else findEntry rest id

/-- Python dict update `self.processed[id] = entry`: replaces the value in
place when the key is present, appends otherwise (dict keys are unique). -/
def setEntry : Ledger → String → LedgerEntry → Ledger
  | [], id, e => [(id, e)]
  | (k, e0) :: rest, id, e =>
      if k = id then (k, e) :: rest else (k, e0) :: setEntry rest id e

/-- Python dict deletion `del self.processed[id]` (keys unique, so deleting
the key removes exactly the pairs carrying it). -/
def eraseEntry (m : Ledger) (id : String) : Ledger :=
  m.filter (fun p => decide (p.1 ≠ id))

/-- `ProcessedFilesTracker.is_processed` (tracker.py lines 62-72):
`return file_id in self.processed`. -/
def is_processed (m : Ledger) (file_id : String) : Bool :=
  (findEntry m file_id).isSome

/-- `ProcessedFilesTracker.get_processed_info` (tracker.py lines 93-103):
`return self.processed.get(file_id)`. -/
def get_processed_info (m : Ledger) (file_id : String) : Option LedgerEntry :=
  findEntry m file_id

/-- The entry value built by `mark_processed` (tracker.py lines 81-89);
`now` stands for `datetime.datetime.now().isoformat()`. -/
def entryOfVideo (now : String) (v : VideoFile) : LedgerEntry :=
  { name := v.name
    size := v.size
    youtube_id := v.youtube_id
    youtube_url := v.youtube_url
    processed_date := v.processed_date.getD now
    status := v.upload_status
    error_message := v.error_message }

/-- In-memory effect of `ProcessedFilesTracker.mark_processed`
(tracker.py lines 74-91): `self.processed[video.id] = {...}`. -/
def mark_processed (now : String) (m : Ledger) (v : VideoFile) : Ledger :=
  setEntry m v.id (entryOfVideo now v)

/-- `ProcessedFilesTracker.remove_processed` (tracker.py lines 105-121):
returns (returned bool, resulting dict, whether `_save` was called). -/
def remove_processed (m : Ledger) (file_id : String) :
    Bool × Ledger × Bool :=
  if (findEntry m file_id).isSome then
    (true, eraseEntry m file_id, true)
  else
    (false, m, false)

/-- The statistics dict of `ProcessedFilesTracker.get_statistics`
(tracker.py lines 123-142), minus the formatted-size string. -/
structure Stats where
  total_processed : Nat
  successful : Nat
  failed : Nat
  pending : Int
  total_size_bytes : Nat
  deriving DecidableEq, Repr

/-- `ProcessedFilesTracker.get_statistics` (tracker.py lines 123-142). -/
def get_statistics (m : Ledger) : Stats :=
  let total := m.length
  let successful := (m.filter (fun p => p.2.status = "success")).length
  let failed := (m.filter (fun p => p.2.status = "failed")).length
  { total_processed := total
    successful := successful
    failed := failed
    pending := (total : Int) - successful - failed
    total_size_bytes := (m.map (fun p => p.2.size)).sum }

/-- `ProcessedFilesTracker.list_failed` (tracker.py lines 144-160), keeping
the (id, entry) pairs whose status is `"failed"`. -/
def list_failed (m : Ledger) : List (String × LedgerEntry) :=
  m.filter (fun p => p.2.status = "failed")

/-- `ProcessedFilesTracker.clear_failed` (tracker.py lines 162-174):
deletes every key whose entry has status `"failed"`; the Bool records
whether `_save` ran (only when at least one entry was deleted). -/
def clear_failed (m : Ledger) : Ledger × Bool :=
  let failed_ids := (list_failed m).map (fun p => p.1)
  (failed_ids.foldl (fun acc id => eraseEntry acc id) m, !failed_ids.isEmpty)

/-- The removal phase of `VideoProcessor.retry_failed`
(processor.py lines 211-227): `list_failed`, then `remove_processed` on
each listed id. -/
def retry_failed_removals (m : Ledger) : Ledger :=
  (list_failed m).foldl (fun acc p => (remove_processed acc p.1).2.1) m

/-- State of the ledger file on disk, as `_load` distinguishes it:
missing, JSON-parse failure, other read failure, or parseable content. -/
inductive LedgerFile
  | absent
  | malformed
  | unreadable
  | valid (m : Ledger)
  deriving DecidableEq, Repr

/-- `ProcessedFilesTracker._load` (tracker.py lines 25-42).  The Python
code catches `json.JSONDecodeError` and every other exception and returns
`{}`, so the result is always `Except.ok`; the `Except` codomain records
that nothing escapes the method. -/
def tracker_load : LedgerFile → Except String Ledger
  | .absent => .ok []
  | .malformed => .ok []
  | .unreadable => .ok []
  | .valid m => .ok m

/-- `ProcessedFilesTracker._save` (tracker.py lines 44-60): writes the
whole dict; an I/O failure (`canWrite = false`) is logged and re-raised. -/
def tracker_save (canWrite : Bool) (m : Ledger) : Except String LedgerFile :=
  if canWrite then .ok (.valid m) else .error "Error saving processed files database"

/-- `mark_processed` including its `_save` call: on save failure the
exception propagates out of the tracker. -/
def mark_processed_io (canWrite : Bool) (now : String) (m : Ledger)
    (v : VideoFile) : Except String (Ledger × LedgerFile) :=
  let m' := mark_processed now m v
  match tracker_save canWrite m' with
  | .ok f => .ok (m', f)
  | .error e => .error e

/-- Python string slice `s[:n]`: the first `n` characters. -/
def pySlice (s : String) (n : Nat) : String :=
  String.mk (s.data.take n)

/-- Index where the extension starts under `os.path.splitext`: the last
dot with some earlier non-dot character (leading dots belong to the root). -/
def splitextCut (cs : List Char) : Option Nat :=
  ((List.range cs.length).filter (fun i =>
    cs.getD i ' ' = '.' ∧ ∃ j ∈ List.range i, cs.getD j ' ' ≠ '.')).getLast?

/-- `os.path.splitext(name)[0]`: the filename without its extension. -/
def splitextRoot (s : String) : String :=
  match splitextCut s.data with
  | some i => String.mk (s.data.take i)
  | none => s

/-- The `snippet` part of the upload request body built by
`YouTubeHandler.upload_video` (youtube_handler.py lines 91-102). -/
structure Snippet where
  title : String
  description : String
  tags : List String
  categoryId : String
  deriving DecidableEq, Repr

/-- Python truthiness defaulting `if not title: title = default` for an
optional string argument. -/
def orDefaultStr (x : Option String) (d : String) : String :=
  match x with
  | none => d
  | some s => if s.isEmpty then d else s

/-- Python truthiness defaulting for the optional tags list. -/
def orDefaultTags (x : Option (List String)) (d : List String) : List String :=
  match x with
  | none => d
  | some ts => if ts.isEmpty then d else ts

/-- Metadata preparation and request body of `YouTubeHandler.upload_video`
(youtube_handler.py lines 80-102): title defaults to the filename without
extension, description to a timestamp string, tags to
`CONFIG["YOUTUBE_DEFAULT_TAGS"]`; then `title[:100]`, `description[:5000]`,
`tags[:500]`. -/
def upload_video_body (categoryId : String) (defaultTags : List String)
    (now : String) (v : VideoFile) (title? desc? : Option String)
    (tags? : Option (List String)) : Snippet :=
  let title := orDefaultStr title? (splitextRoot v.name)
  let description := orDefaultStr desc? ("Uploaded from Google Drive on " ++ now)
  let tags := orDefaultTags tags? defaultTags
  { title := pySlice title 100
    description := pySlice description 5000
    tags := tags.take 500
    categoryId := categoryId }

/-- Outcome of one `request.next_chunk()` call inside the upload loop:
progress with `response` still `None`, the final response (carrying the
YouTube video id), or an `HttpError` with a status code. -/
inductive ChunkOutcome
  | progress
  | complete (videoId : String)
  | httpError (code : Nat)
  deriving DecidableEq, Repr

/-- The retryable status test `e.resp.status in [500, 502, 503, 504]`
(youtube_handler.py line 141). -/
def isRetryableCode (c : Nat) : Bool :=
  c == 500 || c == 502 || c == 503 || c == 504

/-- Result of the upload loop: a completed upload, a re-raised `HttpError`,
or an exhausted outcome stream (`response` never arrived). -/
inductive UploadResult
  | success (videoId : String) (videoUrl : String)
  | raisedHttp (code : Nat)
  | exhausted
  deriving DecidableEq, Repr

/-- The resumable-upload retry loop of `YouTubeHandler.upload_video`
(youtube_handler.py lines 125-151): `while response is None`, with the
`retry` counter (never reset), `retry > MAX_RETRIES` raising, and sleeps
of `2 ** retry` seconds accumulated in order. -/
def uploadLoop (maxRetries retry : Nat) (sleeps : List Nat) :
    List ChunkOutcome → UploadResult × List Nat
  | [] => (.exhausted, sleeps)
  | o :: rest =>
    match o with
    | .progress => uploadLoop maxRetries retry sleeps rest
    | .complete vid =>
        (.success vid ("https://www.youtube.com/watch?v=" ++ vid), sleeps)
    | .httpError c =>
        if isRetryableCode c then
          if retry + 1 > maxRetries then (.raisedHttp c, sleeps)
          else uploadLoop maxRetries (retry + 1) (sleeps ++ [2 ^ (retry + 1)]) rest
        else (.raisedHttp c, sleeps)

/-- `upload_video`'s outcome as the caller sees it: `ok (video_id, url)`
on success, an exception otherwise (youtube_handler.py lines 135-165). -/
def uploadExcept (maxRetries : Nat) (chunks : List ChunkOutcome) :
    Except String (String × String) :=
  match uploadLoop maxRetries 0 [] chunks with
  | (.success vid url, _) => .ok (vid, url)
  | (.raisedHttp c, _) => .error ("HttpError status " ++ toString c)
  | (.exhausted, _) => .error "Upload failed: No response received"

/-- The `Error Message` rich-text content built by
`NotionHandler._build_properties` (notion_handler.py lines 129-138):
`video.error_message[:2000]`. -/
def notionErrorMessageContent (msg : String) : String :=
  pySlice msg 2000

/-- The `Title` text content of `NotionHandler._build_properties`
(notion_handler.py lines 78-87): `video.name[:2000]`. -/
def notionTitleContent (v : VideoFile) : String :=
  pySlice v.name 2000

/-- The configuration switches of `config.py` that `processor.py` consults
(CONFIG keys SKIP_NOTION, DELETE_AFTER_UPLOAD, DRY_RUN, MAX_RETRIES). -/
structure ProcCfg where
  skip_notion : Bool
  delete_after_upload : Bool
  dry_run : Bool
  max_retries : Nat
  deriving DecidableEq, Repr

/-- The external world's responses for one video: the Google Drive download
(local path on success), the YouTube chunk outcomes, and whether
`notion.create_entry` returns without raising. -/
structure VideoEnv where
  downloadResult : Except String String
  chunks : List ChunkOutcome
  notionOk : Bool

/-- Observable machine state: the persisted ledger and the local scratch
files currently existing under `TEMP_DOWNLOAD_PATH`. -/
structure World where
  ledger : Ledger
  tempFiles : List String
  deriving DecidableEq, Repr

/-- Python truthiness of `video.local_path` (`None` and `""` are falsy). -/
def pathTruthy : Option String → Bool
  | none => false
  | some p => !p.isEmpty

/-- Result of `VideoProcessor._process_single_video`: the mutated video, the
final world, the intermediate worlds after each mutation (in order), whether
the method re-raised, and whether the upload stage was reached. -/
structure SingleResult where
  video : VideoFile
  world : World
  snapshots : List World
  raised : Bool
  uploadAttempted : Bool
  deriving DecidableEq, Repr

/-- The best-effort scratch removal of the except block (processor.py
lines 179-183): `if video.local_path and os.path.exists(...)`, removal
failures swallowed. -/
def failCleanup (lp : Option String) (files : List String) : List String :=
  match lp with
  | some p => if pathTruthy (some p) && files.contains p then files.erase p
              else files
  | none => files

/-- The success-path cleanup (processor.py lines 155-157):
`if CONFIG["DELETE_AFTER_UPLOAD"] and video.local_path and os.path.exists(...)`. -/
def successCleanup (delete : Bool) (lp : Option String)
    (files : List String) : List String :=
  match lp with
  | some p => if delete && pathTruthy (some p) && files.contains p then
                files.erase p
              else files
  | none => files

/-- The `except` block of `_process_single_video` (processor.py lines
162-186): set status/error/date, best-effort Notion, `mark_processed`,
best-effort scratch-file removal, re-raise. -/
def failurePath (now err : String) (v : VideoFile) (w : World) : SingleResult :=
  let v' := { v with upload_status := "failed", error_message := some err,
                     processed_date := some now }
  let w1 : World := { w with ledger := mark_processed now w.ledger v' }
  let w2 : World := { w1 with tempFiles := failCleanup v'.local_path w1.tempFiles }
  { video := v', world := w2, snapshots := [w1, w2], raised := true,
    uploadAttempted := false }

/-- `VideoProcessor._process_single_video` (processor.py lines 126-186):
download, upload, Notion, `mark_processed`, then conditional scratch-file
cleanup; any exception takes `failurePath`.  A failed download has already
deleted its partial file (gdrive_handler.py lines 157-166), so the world is
unchanged and `local_path` stays `None`. -/
def process_single_video (cfg : ProcCfg) (env : VideoEnv) (now : String)
    (v : VideoFile) (w : World) : SingleResult :=
  match env.downloadResult with
  | .error e => failurePath now e v w
  | .ok p =>
    let v1 := { v with local_path := some p }
    let w1 : World := { w with tempFiles := p :: w.tempFiles }
    match uploadExcept cfg.max_retries env.chunks with
    | .error e =>
        let r := failurePath now e v1 w1
        { r with snapshots := w1 :: r.snapshots, uploadAttempted := true }
    | .ok (vid, url) =>
        let v2 := { v1 with youtube_id := some vid, youtube_url := some url,
                            upload_status := "success",
                            processed_date := some now }
        if !cfg.skip_notion && !env.notionOk then
          let r := failurePath now "Notion entry creation raised" v2 w1
          { r with snapshots := w1 :: r.snapshots, uploadAttempted := true }
        else
          let w2 : World := { w1 with ledger := mark_processed now w1.ledger v2 }
          let w3 : World := { w2 with
            tempFiles := successCleanup cfg.delete_after_upload v2.local_path
              w2.tempFiles }
          { video := v2, world := w3, snapshots := [w1, w2, w3],
            raised := false, uploadAttempted := true }

/-- Counters of one `process_videos` run together with the final world and
every intermediate world it passed through. -/
structure RunResult where
  world : World
  downloads : Nat
  uploads : Nat
  success_count : Nat
  failed_count : Nat
  skipped_count : Nat
  snapshots : List World
  deriving DecidableEq, Repr

/-- The per-video loop of `VideoProcessor.process_videos` (processor.py
lines 77-113): skip when `skip_processed` and the id is in the ledger, skip
work in dry-run mode, otherwise run `_process_single_video`; an exception
from it is caught by the loop and counted as a failure. -/
def process_videos (cfg : ProcCfg) (env : String → VideoEnv) (now : String)
    (skip_processed : Bool) : List VideoFile → World → RunResult
  | [], w => { world := w, downloads := 0, uploads := 0, success_count := 0,
               failed_count := 0, skipped_count := 0, snapshots := [] }
  | v :: rest, w =>
    if skip_processed && is_processed w.ledger v.id then
      let r := process_videos cfg env now skip_processed rest w
      { r with skipped_count := r.skipped_count + 1 }
    else if cfg.dry_run then
      process_videos cfg env now skip_processed rest w
    else
      let s := process_single_video cfg (env v.id) now v w
      let r := process_videos cfg env now skip_processed rest s.world
      { world := r.world
        downloads := r.downloads + 1
        uploads := r.uploads + (if s.uploadAttempted then 1 else 0)
        success_count := r.success_count + (if s.raised then 0 else 1)
        failed_count := r.failed_count + (if s.raised then 1 else 0)
        skipped_count := r.skipped_count
        snapshots := s.snapshots ++ r.snapshots }

/-- Number of `HttpError` outcomes in a chunk-outcome sequence (each one
bumps the loop's `retry` counter when retryable). -/
def errCount : List ChunkOutcome → Nat
  | [] => 0
  | .httpError _ :: rest => errCount rest + 1
  | _ :: rest => errCount rest

/-- An environment whose upload hits a retryable 503 on four consecutive
chunk requests (MAX_RETRIES defaults to 3, so the budget is exceeded). -/
def retryEnv : VideoEnv :=
  { downloadResult := .ok "./temp_videos/a.mp4",
    chunks := List.replicate 4 (ChunkOutcome.httpError 503),
    notionOk := true }

/-- A sample successful ledger entry, for concrete instantiations. -/
def sampleEntrySuccess : LedgerEntry :=
  { name := "a.mp4", size := 5, youtube_id := some "yt1",
    youtube_url := some "https://www.youtube.com/watch?v=yt1",
    processed_date := "2024-01-01T00:00:00", status := "success",
    error_message := none }

/-- A sample failed ledger entry, for concrete instantiations. -/
def sampleEntryFailed : LedgerEntry :=
  { name := "b.mp4", size := 7, youtube_id := none, youtube_url := none,
    processed_date := "2024-01-02T00:00:00", status := "failed",
    error_message := some "HttpError status 400" }

/-- A sample video file, for concrete instantiations. -/
def sampleVideo : VideoFile :=
  { id := "f1", name := "a.mp4", size := 5, mime_type := "video/mp4",
    gdrive_link := "https://drive.google.com/file/d/f1" }

/-- A sample configuration with the config.py defaults
(SKIP_NOTION aside, which is set to skip the external notifier). -/
def sampleCfg : ProcCfg :=
  { skip_notion := true, delete_after_upload := true, dry_run := false,
    max_retries := 3 }

/-- A sample benign environment: downloads succeed, the upload completes on
the second chunk, Notion never raises. -/
def sampleEnv : String → VideoEnv := fun _ =>
  { downloadResult := .ok "./temp_videos/a.mp4",
    chunks := [.progress, .complete "yt1"], notionOk := true }

/-- The empty starting world. -/
def sampleWorld : World := { ledger := [], tempFiles := [] }

theorem findEntry_setEntry_self (m : Ledger) (id : String) (e : LedgerEntry) :
    findEntry (setEntry m id e) id = some e := by
  induction m with
  | nil => simp [setEntry, findEntry]
  | cons hd tl ih =>
      obtain ⟨k, e0⟩ := hd
      by_cases h : k = id
      · simp [setEntry, h, findEntry]
      · simp [setEntry, h, findEntry, ih]

theorem findEntry_setEntry_ne (m : Ledger) (id id' : String) (e : LedgerEntry)
    (h : id' ≠ id) : findEntry (setEntry m id e) id' = findEntry m id' := by
  induction m with
  | nil =>
      simp only [setEntry, findEntry]
      rw [if_neg (Ne.symm h)]
  | cons hd tl ih =>
      obtain ⟨k, e0⟩ := hd
      by_cases hk : k = id
      · subst hk
        simp only [setEntry, if_pos rfl, findEntry]
        rw [if_neg (Ne.symm h), if_neg (Ne.symm h)]
      · simp only [setEntry, if_neg hk, findEntry]
        by_cases hk' : k = id'
        · rw [if_pos hk', if_pos hk']
        · rw [if_neg hk', if_neg hk', ih]

theorem eraseEntry_cons_self (k0 : String) (e0 : LedgerEntry) (tl : Ledger) :
    eraseEntry ((k0, e0) :: tl) k0 = eraseEntry tl k0 := by
  simp [eraseEntry, List.filter]

theorem eraseEntry_cons_ne (k0 : String) (e0 : LedgerEntry) (tl : Ledger)
    (k : String) (h : k0 ≠ k) :
    eraseEntry ((k0, e0) :: tl) k = (k0, e0) :: eraseEntry tl k := by
  simp [eraseEntry, List.filter, h]

theorem findEntry_eraseEntry_self (m : Ledger) (k : String) :
    findEntry (eraseEntry m k) k = none := by
  induction m with
  | nil => rfl
  | cons hd tl ih =>
      obtain ⟨k0, e0⟩ := hd
      by_cases hk0 : k0 = k
      · subst hk0
        rw [eraseEntry_cons_self, ih]
      · rw [eraseEntry_cons_ne k0 e0 tl k hk0]
        simp only [findEntry, if_neg hk0]
        exact ih

theorem findEntry_eraseEntry_ne (m : Ledger) (k id : String) (h : id ≠ k) :
    findEntry (eraseEntry m k) id = findEntry m id := by
  induction m with
  | nil => rfl
  | cons hd tl ih =>
      obtain ⟨k0, e0⟩ := hd
      by_cases hk0 : k0 = k
      · subst hk0
        rw [eraseEntry_cons_self, ih]
        simp only [findEntry]
        rw [if_neg (Ne.symm h)]
      · rw [eraseEntry_cons_ne k0 e0 tl k hk0]
        simp only [findEntry]
        by_cases hid : k0 = id
        · rw [if_pos hid, if_pos hid]
        · rw [if_neg hid, if_neg hid, ih]

theorem isProcessed_setEntry_mono (m : Ledger) (id id' : String)
    (e : LedgerEntry) (h : is_processed m id' = true) :
    is_processed (setEntry m id e) id' = true := by
  by_cases hid : id' = id
  · subst hid
    simp [is_processed, findEntry_setEntry_self]
  · simpa [is_processed, findEntry_setEntry_ne m id id' e hid] using h

/-- Claim C6: `mark_processed` persists the written entry; after a restart
(`_load` of the saved file), `is_processed` is true for the video's id and
`get_processed_info` returns the identical entry, so in particular the same
status, youtube_id and youtube_url as were written. -/
theorem C6_ledger_round_trip (v : VideoFile) (now : String) (m : Ledger) :
    mark_processed_io true now m v =
      .ok (mark_processed now m v, .valid (mark_processed now m v)) ∧
    tracker_load (.valid (mark_processed now m v)) =
      .ok (mark_processed now m v) ∧
    is_processed (mark_processed now m v) v.id = true ∧
    get_processed_info (mark_processed now m v) v.id =
      some (entryOfVideo now v) ∧
    (get_processed_info (mark_processed now m v) v.id).map (fun e => e.status) =
      some v.upload_status ∧
    (get_processed_info (mark_processed now m v) v.id).map
      (fun e => e.youtube_id) = some v.youtube_id ∧
    (get_processed_info (mark_processed now m v) v.id).map
      (fun e => e.youtube_url) = some v.youtube_url := by
  refine ⟨rfl, rfl, ?_, ?_, ?_, ?_, ?_⟩ <;>
    simp [is_processed, get_processed_info, mark_processed,
      findEntry_setEntry_self, entryOfVideo]

/-- Claim C10: `remove_processed` on an absent id returns `False` and
neither changes the ledger nor calls `_save`; on a present id it returns
`True`, calls `_save`, deletes that id's entry and leaves every other id's
entry untouched. -/
theorem C10_remove_processed (m : Ledger) (id : String) :
    (findEntry m id = none → remove_processed m id = (false, m, false)) ∧
    (∀ e, findEntry m id = some e →
      (remove_processed m id).1 = true ∧
      (remove_processed m id).2.2 = true ∧
      findEntry (remove_processed m id).2.1 id = none ∧
      (∀ id', id' ≠ id →
        findEntry (remove_processed m id).2.1 id' = findEntry m id')) := by
  constructor
  · intro h
    simp [remove_processed, h]
  · intro e he
    have hs : (findEntry m id).isSome = true := by simp [he]
    refine ⟨by simp [remove_processed, hs], by simp [remove_processed, hs],
      ?_, ?_⟩
    · simp [remove_processed, hs, findEntry_eraseEntry_self]
    · intro id' hne
      simp [remove_processed, hs, findEntry_eraseEntry_ne m id id' hne]

/-- Claim C10 witness at concrete inputs. -/
theorem C10_remove_processed_witness :
    remove_processed [("f1", sampleEntrySuccess)] "nope" =
      (false, [("f1", sampleEntrySuccess)], false) ∧
    (remove_processed [("f1", sampleEntrySuccess)] "f1").1 = true ∧
    (remove_processed [("f1", sampleEntrySuccess)] "f1").2.2 = true ∧
    findEntry (remove_processed [("f1", sampleEntrySuccess)] "f1").2.1 "f1" =
      none ∧
    findEntry (remove_processed [("f1", sampleEntrySuccess)] "f1").2.1 "f2" =
      findEntry [("f1", sampleEntrySuccess)] "f2" := by
  refine ⟨(C10_remove_processed [("f1", sampleEntrySuccess)] "nope").1 rfl,
    ?_, ?_, ?_, ?_⟩
  · exact ((C10_remove_processed [("f1", sampleEntrySuccess)] "f1").2
      sampleEntrySuccess rfl).1
  · exact ((C10_remove_processed [("f1", sampleEntrySuccess)] "f1").2
      sampleEntrySuccess rfl).2.1
  · exact ((C10_remove_processed [("f1", sampleEntrySuccess)] "f1").2
      sampleEntrySuccess rfl).2.2.1
  · exact ((C10_remove_processed [("f1", sampleEntrySuccess)] "f1").2
      sampleEntrySuccess rfl).2.2.2 "f2" (by decide)

theorem pySlice_length (s : String) (n : Nat) :
    (pySlice s n).length = min n s.length :=
  List.length_take n s.data

/-- Claim C5, counterexample: a JSON-parse failure (and likewise any other
read failure) while loading the ledger file does NOT raise out of the
tracker; `_load` catches it and returns the empty database. -/
theorem C5_load_error_swallowed_counterexample :
    tracker_load LedgerFile.malformed = Except.ok [] ∧
    (tracker_load LedgerFile.malformed).isOk = true ∧
    tracker_load LedgerFile.unreadable = Except.ok [] := by
  exact ⟨rfl, rfl, rfl⟩

/-- Claim C5 amended: `_load` never propagates an error (parse failures and
read failures alike yield the empty database), while an I/O failure during
`_save` does propagate out of the tracker, also out of `mark_processed`. -/
theorem C5_ledger_io_errors (f : LedgerFile) (m : Ledger) (v : VideoFile)
    (now : String) :
    (tracker_load f).isOk = true ∧
    tracker_load LedgerFile.malformed = Except.ok [] ∧
    tracker_load LedgerFile.unreadable = Except.ok [] ∧
    tracker_save false m =
      Except.error "Error saving processed files database" ∧
    (mark_processed_io false now m v).isOk = false := by
  refine ⟨?_, rfl, rfl, rfl, rfl⟩
  cases f <;> rfl

/-- Claim C4, counterexample: `mark_processed` stores `error_message` in
the ledger untruncated; a 2001-character message is persisted with all
2001 characters, so the ledger value is not limited to 2000. -/
theorem C4_error_message_untruncated_counterexample :
    (get_processed_info
        (mark_processed "2024-01-01"
          [] { sampleVideo with
               upload_status := "failed",
               error_message := some (String.mk (List.replicate 2001 'a')) })
        "f1").map (fun e => e.error_message) =
      some (some (String.mk (List.replicate 2001 'a'))) ∧
    (String.mk (List.replicate 2001 'a')).length = 2001 ∧
    ¬ (String.mk (List.replicate 2001 'a')).length ≤ 2000 := by
  refine ⟨rfl, ?_, ?_⟩
  · show (List.replicate 2001 'a').length = 2001
    rw [List.length_replicate]
  · show ¬ (List.replicate 2001 'a').length ≤ 2000
    rw [List.length_replicate]
    decide

/-- Claim C4 amended: the ledger entry written by `mark_processed` keeps
the failure's `error_message` exactly as produced (no truncation); the
2000-character truncation applies to the `Error Message` rich-text content
that `NotionHandler._build_properties` sends to Notion. -/
theorem C4_error_message_truncation (now : String) (m : Ledger)
    (v : VideoFile) (msg : String) :
    (get_processed_info (mark_processed now m v) v.id).map
      (fun e => e.error_message) = some v.error_message ∧
    notionErrorMessageContent msg = pySlice msg 2000 ∧
    (notionErrorMessageContent msg).length = min 2000 msg.length ∧
    (notionErrorMessageContent msg).length ≤ 2000 := by
  refine ⟨?_, rfl, pySlice_length msg 2000, ?_⟩
  · simp [get_processed_info, mark_processed, findEntry_setEntry_self,
      entryOfVideo]
  · rw [show notionErrorMessageContent msg = pySlice msg 2000 from rfl,
      pySlice_length]
    exact Nat.min_le_left 2000 msg.length

/-- Claim C8: the upload request body truncates the title to 100
characters, the description to 5000 characters and the tags to 500
entries; a 10,000-character description is sent as exactly its first 5000
characters. -/
theorem C8_upload_body_truncation (categoryId : String)
    (defaultTags : List String) (now : String) (v : VideoFile)
    (title? desc? : Option String) (tags? : Option (List String)) :
    (upload_video_body categoryId defaultTags now v title? desc? tags?).title.length
      ≤ 100 ∧
    (upload_video_body categoryId defaultTags now v title? desc? tags?).description.length
      ≤ 5000 ∧
    (upload_video_body categoryId defaultTags now v title? desc? tags?).tags.length
      ≤ 500 ∧
    (∀ d : String, d.length = 10000 →
      (upload_video_body categoryId defaultTags now v title? (some d) tags?).description
        = pySlice d 5000 ∧
      (upload_video_body categoryId defaultTags now v title? (some d) tags?).description.length
        = 5000) := by
  refine ⟨?_, ?_, ?_, ?_⟩
  · rw [show (upload_video_body categoryId defaultTags now v title? desc? tags?).title
        = pySlice (orDefaultStr title? (splitextRoot v.name)) 100 from rfl]
    rw [pySlice_length]
    exact Nat.min_le_left _ _
  · rw [show (upload_video_body categoryId defaultTags now v title? desc? tags?).description
        = pySlice (orDefaultStr desc? ("Uploaded from Google Drive on " ++ now)) 5000
        from rfl]
    rw [pySlice_length]
    exact Nat.min_le_left _ _
  · rw [show (upload_video_body categoryId defaultTags now v title? desc? tags?).tags
        = (orDefaultTags tags? defaultTags).take 500 from rfl]
    rw [List.length_take]
    exact Nat.min_le_left _ _
  · intro d hd
    have hne : d ≠ "" := by
      intro h0
      rw [h0] at hd
      exact absurd hd (by decide)
    have hemp : d.isEmpty = false :=
      Bool.eq_false_iff.mpr (fun htrue => hne ((String.isEmpty_iff d).mp htrue))
    have hdesc :
        (upload_video_body categoryId defaultTags now v title? (some d) tags?).description
          = pySlice d 5000 := by
      show pySlice (orDefaultStr (some d)
        ("Uploaded from Google Drive on " ++ now)) 5000 = pySlice d 5000
      rw [show orDefaultStr (some d) ("Uploaded from Google Drive on " ++ now)
          = if d.isEmpty then ("Uploaded from Google Drive on " ++ now) else d
          from rfl]
      rw [hemp]
      simp
    refine ⟨hdesc, ?_⟩
    rw [hdesc, pySlice_length, hd]
    exact Nat.min_eq_left (by decide)

/-- Claim C8 witness: a concrete 10,000-character description is sent
truncated to exactly its first 5000 characters. -/
theorem C8_upload_body_truncation_witness :
    (String.mk (List.replicate 10000 'x')).length = 10000 ∧
    (upload_video_body "22" [] "2024-01-01" sampleVideo none
        (some (String.mk (List.replicate 10000 'x'))) none).description
      = pySlice (String.mk (List.replicate 10000 'x')) 5000 ∧
    (upload_video_body "22" [] "2024-01-01" sampleVideo none
        (some (String.mk (List.replicate 10000 'x'))) none).description.length
      = 5000 := by
  have hlen : (String.mk (List.replicate 10000 'x')).length = 10000 := by
    show (List.replicate 10000 'x').length = 10000
    rw [List.length_replicate]
  have h := (C8_upload_body_truncation "22" [] "2024-01-01" sampleVideo
    none (some (String.mk (List.replicate 10000 'x'))) none).2.2.2
    (String.mk (List.replicate 10000 'x')) hlen
  exact ⟨hlen, h.1, h.2⟩

theorem nodupKeys_eq_of_mem (m : Ledger) :
    (m.map Prod.fst).Nodup →
    ∀ p q : String × LedgerEntry, p ∈ m → q ∈ m → p.1 = q.1 → p = q := by
  induction m with
  | nil =>
      intro _ p q hp
      cases hp
  | cons hd tl ih =>
      intro hnd p q hp hq hpq
      simp only [List.map_cons, List.nodup_cons] at hnd
      rcases List.mem_cons.mp hp with hphd | hp'
      · rcases List.mem_cons.mp hq with hqhd | hq'
        · rw [hphd, hqhd]
        · subst hphd
          have hmem : q.1 ∈ tl.map Prod.fst := List.mem_map_of_mem Prod.fst hq'
          rw [← hpq] at hmem
          exact absurd hmem hnd.1
      · rcases List.mem_cons.mp hq with hqhd | hq'
        · subst hqhd
          have hmem : p.1 ∈ tl.map Prod.fst := List.mem_map_of_mem Prod.fst hp'
          rw [hpq] at hmem
          exact absurd hmem hnd.1
        · exact ih hnd.2 p q hp' hq' hpq

theorem foldl_eraseEntry (L : List String) :
    ∀ m : Ledger, L.foldl (fun acc id => eraseEntry acc id) m =
      m.filter (fun p => decide (p.1 ∉ L)) := by
  induction L with
  | nil =>
      intro m
      simp
  | cons a L ih =>
      intro m
      rw [List.foldl_cons, ih (eraseEntry m a)]
      rw [show eraseEntry m a = m.filter (fun p => decide (p.1 ≠ a)) from rfl]
      rw [List.filter_filter]
      refine List.filter_congr ?_
      intro p _
      by_cases ha : p.1 = a
      · simp [ha]
      · by_cases hL : p.1 ∈ L <;> simp [ha, hL]

theorem findEntry_filter (q : String × LedgerEntry → Bool) (m : Ledger)
    (id : String) (e : LedgerEntry) (h : findEntry m id = some e)
    (hq : q (id, e) = true) :
    findEntry (m.filter q) id = some e := by
  induction m with
  | nil => simp [findEntry] at h
  | cons hd tl ih =>
      obtain ⟨k, e0⟩ := hd
      by_cases hk : k = id
      · subst hk
        have he : e0 = e := by simpa [findEntry] using h
        subst he
        rw [List.filter_cons]
        simp [hq, findEntry]
      · have h' : findEntry tl id = some e := by simpa [findEntry, hk] using h
        rw [List.filter_cons]
        by_cases hqh : q (k, e0) = true
        · rw [if_pos hqh]
          simp only [findEntry, if_neg hk]
          exact ih h'
        · rw [if_neg hqh]
          exact ih h'

theorem clear_failed_eq (m : Ledger) (hnd : (m.map Prod.fst).Nodup) :
    (clear_failed m).1 = m.filter (fun p => decide (p.2.status ≠ "failed")) := by
  rw [show (clear_failed m).1 =
      ((list_failed m).map (fun p => p.1)).foldl
        (fun acc id => eraseEntry acc id) m from rfl]
  rw [foldl_eraseEntry]
  refine List.filter_congr ?_
  intro p hp
  by_cases hs : p.2.status = "failed"
  · have hpL : p.1 ∈ (list_failed m).map (fun p => p.1) :=
      List.mem_map_of_mem _ (List.mem_filter.mpr ⟨hp, by simp [hs]⟩)
    simp [hpL, hs]
  · have hpL : p.1 ∉ (list_failed m).map (fun p => p.1) := by
      intro hmem
      rcases List.mem_map.mp hmem with ⟨r, hr, hr1⟩
      have hrm : r ∈ m := (List.mem_filter.mp hr).1
      have hrs : r.2.status = "failed" := by
        simpa using (List.mem_filter.mp hr).2
      have hpr : p = r := nodupKeys_eq_of_mem m hnd p r hp hrm hr1.symm
      rw [hpr] at hs
      exact hs hrs
    simp [hpL, hs]

/-- Claim C7: `clear_failed` removes exactly the `status="failed"` entries,
leaves every other entry unchanged, and afterwards `get_statistics` reports
zero failed while the successful count is unchanged. -/
theorem C7_clear_failed (m : Ledger) (hnd : (m.map Prod.fst).Nodup) :
    (clear_failed m).1 = m.filter (fun p => decide (p.2.status ≠ "failed")) ∧
    (∀ id e, findEntry m id = some e → e.status ≠ "failed" →
      findEntry (clear_failed m).1 id = some e) ∧
    (get_statistics (clear_failed m).1).failed = 0 ∧
    (get_statistics (clear_failed m).1).successful =
      (get_statistics m).successful := by
  have h1 := clear_failed_eq m hnd
  refine ⟨h1, ?_, ?_, ?_⟩
  · intro id e he hs
    rw [h1]
    exact findEntry_filter _ m id e he (by simpa using hs)
  · rw [h1]
    rw [show (get_statistics (m.filter fun p => decide (p.2.status ≠ "failed"))).failed
        = ((m.filter fun p => decide (p.2.status ≠ "failed")).filter
            (fun p => decide (p.2.status = "failed"))).length from rfl]
    rw [List.filter_filter]
    have hz : (m.filter fun p =>
        decide (p.2.status = "failed") && decide (p.2.status ≠ "failed")) = [] := by
      refine List.eq_nil_of_length_eq_zero ?_
      rw [show (fun (p : String × LedgerEntry) =>
          decide (p.2.status = "failed") && decide (p.2.status ≠ "failed"))
          = (fun p => false) from ?_]
      · simp
      · funext p
        by_cases hs : p.2.status = "failed" <;> simp [hs]
    rw [hz]
    rfl
  · rw [h1]
    rw [show (get_statistics (m.filter fun p => decide (p.2.status ≠ "failed"))).successful
        = ((m.filter fun p => decide (p.2.status ≠ "failed")).filter
            (fun p => decide (p.2.status = "success"))).length from rfl]
    rw [show (get_statistics m).successful
        = (m.filter (fun p => decide (p.2.status = "success"))).length from rfl]
    rw [List.filter_filter]
    congr 1
    refine List.filter_congr ?_
    intro p _
    by_cases hs : p.2.status = "success"
    · rw [hs]
      simp
    · simp [hs]

/-- Claim C7 witness on a concrete two-entry ledger (one success, one
failed). -/
theorem C7_clear_failed_witness :
    (clear_failed [("f1", sampleEntrySuccess), ("f2", sampleEntryFailed)]).1 =
      [("f1", sampleEntrySuccess)] ∧
    (get_statistics
      (clear_failed [("f1", sampleEntrySuccess), ("f2", sampleEntryFailed)]).1).failed
      = 0 ∧
    (get_statistics
      (clear_failed [("f1", sampleEntrySuccess), ("f2", sampleEntryFailed)]).1).successful
      = (get_statistics
          [("f1", sampleEntrySuccess), ("f2", sampleEntryFailed)]).successful ∧
    findEntry
      (clear_failed [("f1", sampleEntrySuccess), ("f2", sampleEntryFailed)]).1
      "f1" = some sampleEntrySuccess := by
  have h := C7_clear_failed
    [("f1", sampleEntrySuccess), ("f2", sampleEntryFailed)] (by decide)
  refine ⟨?_, h.2.2.1, h.2.2.2, ?_⟩
  · rw [h.1]
    rfl
  · exact h.2.1 "f1" sampleEntrySuccess rfl (by decide)

theorem sleeps_cons_shift (sleeps : List Nat) (retry m : Nat) :
    (sleeps ++ [2 ^ (retry + 1)]) ++
      (List.range m).map (fun k => 2 ^ (retry + 1 + k + 1)) =
    sleeps ++ (List.range (m + 1)).map (fun k => 2 ^ (retry + k + 1)) := by
  rw [List.append_assoc]
  congr 1
  rw [List.range_succ_eq_map, List.map_cons, List.map_map,
    List.singleton_append]
  have hfun : (fun k => 2 ^ (retry + 1 + k + 1)) =
      ((fun k => 2 ^ (retry + k + 1)) ∘ Nat.succ) := by
    funext k
    show 2 ^ (retry + 1 + k + 1) = 2 ^ (retry + (k + 1) + 1)
    congr 1
    omega
  rw [hfun]

theorem uploadLoop_success_general (n : Nat) (vid : String) :
    ∀ (pre rest : List ChunkOutcome) (retry : Nat) (sleeps : List Nat),
      (∀ o ∈ pre, o = ChunkOutcome.progress ∨
        ∃ c, o = ChunkOutcome.httpError c ∧ isRetryableCode c = true) →
      retry + errCount pre ≤ n →
      uploadLoop n retry sleeps (pre ++ ChunkOutcome.complete vid :: rest) =
        (UploadResult.success vid ("https://www.youtube.com/watch?v=" ++ vid),
         sleeps ++ (List.range (errCount pre)).map
           (fun k => 2 ^ (retry + k + 1))) := by
  intro pre
  induction pre with
  | nil =>
      intro rest retry sleeps _ _
      simp [uploadLoop, errCount]
  | cons o pre ih =>
      intro rest retry sleeps hall hle
      rcases hall o (List.mem_cons_self o pre) with hprog | ⟨c, hoc, hcr⟩
      · subst hprog
        rw [List.cons_append]
        rw [show uploadLoop n retry sleeps
            (ChunkOutcome.progress :: (pre ++ ChunkOutcome.complete vid :: rest)) =
            uploadLoop n retry sleeps (pre ++ ChunkOutcome.complete vid :: rest)
          from rfl]
        rw [ih rest retry sleeps (fun o ho => hall o (List.mem_cons_of_mem _ ho))
          (by simpa [errCount] using hle)]
        rfl
      · subst hoc
        have hcnt : errCount (ChunkOutcome.httpError c :: pre) = errCount pre + 1 :=
          rfl
        have hlt : ¬ (retry + 1 > n) := by
          rw [hcnt] at hle
          omega
        rw [List.cons_append]
        rw [show uploadLoop n retry sleeps
            (ChunkOutcome.httpError c :: (pre ++ ChunkOutcome.complete vid :: rest)) =
            uploadLoop n (retry + 1) (sleeps ++ [2 ^ (retry + 1)])
              (pre ++ ChunkOutcome.complete vid :: rest) from by
          simp [uploadLoop, hcr, hlt]]
        rw [ih rest (retry + 1) (sleeps ++ [2 ^ (retry + 1)])
          (fun o ho => hall o (List.mem_cons_of_mem _ ho))
          (by rw [hcnt] at hle; omega)]
        rw [hcnt, sleeps_cons_shift]

theorem uploadLoop_raise_general (n c : Nat) (hc : isRetryableCode c = true) :
    ∀ (m : Nat) (rest : List ChunkOutcome) (retry : Nat) (sleeps : List Nat),
      retry + m + 1 = n + 1 →
      uploadLoop n retry sleeps
          (List.replicate (m + 1) (ChunkOutcome.httpError c) ++ rest) =
        (UploadResult.raisedHttp c,
         sleeps ++ (List.range m).map (fun k => 2 ^ (retry + k + 1))) := by
  intro m
  induction m with
  | zero =>
      intro rest retry sleeps hsum
      have hr : retry = n := by omega
      subst hr
      simp [List.replicate_succ, uploadLoop, hc, Nat.lt_succ_self]
  | succ m ih =>
      intro rest retry sleeps hsum
      have hlt : ¬ (retry + 1 > n) := by omega
      rw [List.replicate_succ, List.cons_append]
      rw [show uploadLoop n retry sleeps
          (ChunkOutcome.httpError c ::
            (List.replicate (m + 1) (ChunkOutcome.httpError c) ++ rest)) =
          uploadLoop n (retry + 1) (sleeps ++ [2 ^ (retry + 1)])
            (List.replicate (m + 1) (ChunkOutcome.httpError c) ++ rest) from by
        simp [uploadLoop, hc, hlt]]
      rw [ih rest (retry + 1) (sleeps ++ [2 ^ (retry + 1)]) (by omega)]
      rw [sleeps_cons_shift]

/-- Claim C2, counterexample: with MAX_RETRIES = 3 (the default), an upload
whose error runs are each of length 1 — every retryable error is followed
by a successful chunk request — still raises on its 4th retryable error,
because the `retry` counter is never reset after a successful chunk.  The
claim as stated says such an upload eventually completes successfully. -/
theorem C2_retry_budget_counterexample :
    uploadLoop 3 0 []
      [ChunkOutcome.httpError 503, ChunkOutcome.progress,
       ChunkOutcome.httpError 503, ChunkOutcome.progress,
       ChunkOutcome.httpError 503, ChunkOutcome.progress,
       ChunkOutcome.httpError 503, ChunkOutcome.complete "ok"] =
      (UploadResult.raisedHttp 503, [2, 4, 8]) ∧
    (uploadLoop 3 0 []
      [ChunkOutcome.httpError 503, ChunkOutcome.progress,
       ChunkOutcome.httpError 503, ChunkOutcome.progress,
       ChunkOutcome.httpError 503, ChunkOutcome.progress,
       ChunkOutcome.httpError 503, ChunkOutcome.complete "ok"]).1 ≠
      UploadResult.success "ok" "https://www.youtube.com/watch?v=ok" := by
  exact ⟨rfl, by decide⟩

/-- Claim C2 amended: the retry budget is cumulative over the whole upload
call, because the `retry` counter never resets after a successful chunk.
(a) MAX_RETRIES+1 retryable errors in a row make `upload_video` raise,
retry k (k = 1..MAX_RETRIES) having been preceded by a sleep of 2^k
seconds, and `_process_single_video` then marks the item failed;
(b) an upload whose chunk outcomes before completion hold at most
MAX_RETRIES retryable errors in total (and nothing non-retryable)
completes successfully, again with retry k preceded by a 2^k sleep. -/
theorem C2_retry_bound (n c : Nat) (hc : isRetryableCode c = true)
    (rest : List ChunkOutcome) (cfg : ProcCfg) (env : VideoEnv)
    (now p : String) (v : VideoFile) (w : World)
    (hchunks : env.chunks =
      List.replicate (n + 1) (ChunkOutcome.httpError c) ++ rest)
    (hmr : cfg.max_retries = n)
    (hdown : env.downloadResult = Except.ok p)
    (vid : String) (pre rest2 : List ChunkOutcome)
    (hall : ∀ o ∈ pre, o = ChunkOutcome.progress ∨
      ∃ c2, o = ChunkOutcome.httpError c2 ∧ isRetryableCode c2 = true)
    (hcount : errCount pre ≤ n) :
    uploadLoop n 0 []
        (List.replicate (n + 1) (ChunkOutcome.httpError c) ++ rest) =
      (UploadResult.raisedHttp c, (List.range n).map (fun k => 2 ^ (k + 1))) ∧
    (get_processed_info
        (process_single_video cfg env now v w).world.ledger v.id).map
      (fun e => e.status) = some "failed" ∧
    (process_single_video cfg env now v w).raised = true ∧
    uploadLoop n 0 [] (pre ++ ChunkOutcome.complete vid :: rest2) =
      (UploadResult.success vid ("https://www.youtube.com/watch?v=" ++ vid),
       (List.range (errCount pre)).map (fun k => 2 ^ (k + 1))) := by
  have hshift : (fun k => 2 ^ (0 + k + 1)) = (fun k : Nat => 2 ^ (k + 1)) := by
    funext k
    congr 1
    omega
  have hraise := uploadLoop_raise_general n c hc n rest 0 [] (by omega)
  rw [List.nil_append, hshift] at hraise
  have hok := uploadLoop_success_general n vid pre rest2 0 []
    hall (by omega)
  rw [List.nil_append, hshift] at hok
  have hup : uploadExcept cfg.max_retries env.chunks =
      Except.error ("HttpError status " ++ toString c) := by
    rw [hchunks, hmr, uploadExcept, hraise]
  refine ⟨hraise, ?_, ?_, hok⟩
  · rw [show process_single_video cfg env now v w =
        (let v1 := { v with local_path := some p }
         let w1 : World := { w with tempFiles := p :: w.tempFiles }
         let r := failurePath now ("HttpError status " ++ toString c) v1 w1
         { r with snapshots := w1 :: r.snapshots, uploadAttempted := true })
        from by
      rw [process_single_video, hdown]
      simp only
      rw [hup]]
    simp [failurePath, get_processed_info, mark_processed,
      findEntry_setEntry_self, entryOfVideo]
  · rw [show process_single_video cfg env now v w =
        (let v1 := { v with local_path := some p }
         let w1 : World := { w with tempFiles := p :: w.tempFiles }
         let r := failurePath now ("HttpError status " ++ toString c) v1 w1
         { r with snapshots := w1 :: r.snapshots, uploadAttempted := true })
        from by
      rw [process_single_video, hdown]
      simp only
      rw [hup]]
    simp [failurePath]

/-- Claim C2 witness, at MAX_RETRIES = 3 (the default): four consecutive
503s raise with sleeps 2, 4, 8 and the item is marked failed; one 500
followed by a good chunk and completion succeeds after a single 2-second
sleep. -/
theorem C2_retry_bound_witness :
    uploadLoop 3 0 []
        (List.replicate (3 + 1) (ChunkOutcome.httpError 503) ++ []) =
      (UploadResult.raisedHttp 503,
       (List.range 3).map (fun k => 2 ^ (k + 1))) ∧
    (get_processed_info
        (process_single_video sampleCfg retryEnv "2024-01-01" sampleVideo
          sampleWorld).world.ledger sampleVideo.id).map (fun e => e.status) =
      some "failed" ∧
    (process_single_video sampleCfg retryEnv "2024-01-01" sampleVideo
      sampleWorld).raised = true ∧
    uploadLoop 3 0 []
        ([ChunkOutcome.httpError 500, ChunkOutcome.progress] ++
          ChunkOutcome.complete "yt9" :: []) =
      (UploadResult.success "yt9" "https://www.youtube.com/watch?v=yt9",
       (List.range
         (errCount [ChunkOutcome.httpError 500, ChunkOutcome.progress])).map
           (fun k => 2 ^ (k + 1))) := by
  have h := C2_retry_bound 3 503 rfl [] sampleCfg retryEnv "2024-01-01"
    "./temp_videos/a.mp4" sampleVideo sampleWorld rfl rfl rfl
    "yt9" [ChunkOutcome.httpError 500, ChunkOutcome.progress] []
    (by
      intro o ho
      rcases List.mem_cons.mp ho with h1 | h2
      · exact Or.inr ⟨500, h1, rfl⟩
      · rcases List.mem_cons.mp h2 with h3 | h4
        · exact Or.inl h3
        · cases h4)
    (by decide)
  exact ⟨h.1, h.2.1, h.2.2.1, h.2.2.2⟩

/-- Claim C3, counterexample: `_process_single_video` calls
`mark_processed` (processor.py line 152) BEFORE deleting the scratch file
(lines 155-156), so at the observable point right after the ledger write —
snapshot index 1 of the success path, with DELETE_AFTER_UPLOAD = true — a
status=success entry exists while the scratch file still exists. -/
theorem C3_success_before_cleanup_counterexample :
    sampleCfg.delete_after_upload = true ∧
    (get_processed_info
        ((process_single_video sampleCfg (sampleEnv "f1") "2024-01-01"
          sampleVideo sampleWorld).snapshots.getD 1 sampleWorld).ledger
        "f1").map (fun e => e.status) = some "success" ∧
    ((process_single_video sampleCfg (sampleEnv "f1") "2024-01-01"
        sampleVideo sampleWorld).snapshots.getD 1 sampleWorld).tempFiles.contains
      "./temp_videos/a.mp4" = true := by
  exact ⟨rfl, rfl, rfl⟩

/-- Claim C3 amended: the success invariant holds at the END of each
successfully processed item when DELETE_AFTER_UPLOAD is true — after the
cleanup step, the entry has status=success and the scratch file is gone —
but not at every observable point: between `mark_processed` and the
cleanup the success entry coexists with the scratch file, and with
DELETE_AFTER_UPLOAD=false the file is kept. -/
theorem C3_success_entry_cleanup (cfg : ProcCfg) (env : VideoEnv)
    (now : String) (v : VideoFile) (w : World) (p vid url : String)
    (hdl : cfg.delete_after_upload = true)
    (hdown : env.downloadResult = Except.ok p)
    (hup : uploadExcept cfg.max_retries env.chunks = Except.ok (vid, url))
    (hnotion : cfg.skip_notion = true ∨ env.notionOk = true)
    (hp : p ∉ w.tempFiles) (hpne : p.isEmpty = false) :
    (process_single_video cfg env now v w).raised = false ∧
    (get_processed_info
        (process_single_video cfg env now v w).world.ledger v.id).map
      (fun e => e.status) = some "success" ∧
    p ∉ (process_single_video cfg env now v w).world.tempFiles := by
  obtain ⟨sn, da, dr, mr⟩ := cfg
  obtain ⟨dres, chunks, nok⟩ := env
  simp only at hdown hup hnotion hdl
  subst hdown
  subst hdl
  have hcond : (!sn && !nok) = false := by
    rcases hnotion with h | h
    · rw [h]
      rfl
    · rw [h]
      simp
  have hpt : pathTruthy (some p) = true := by
    simp [pathTruthy, hpne]
  have hcont : (p :: w.tempFiles).contains p = true := by
    simp [List.contains_cons]
  refine ⟨?_, ?_, ?_⟩ <;>
    simp only [process_single_video, hup, hcond, Bool.false_eq_true,
      if_false, successCleanup, hpt, hcont, Bool.and_true, Bool.true_and,
      if_true, List.erase_cons_head] <;>
    simp [get_processed_info, mark_processed, findEntry_setEntry_self,
      entryOfVideo, hp]

/-- Claim C3 witness: the amended invariant at a concrete benign run with
DELETE_AFTER_UPLOAD = true. -/
theorem C3_success_entry_cleanup_witness :
    (process_single_video sampleCfg (sampleEnv "f1") "2024-01-01"
      sampleVideo sampleWorld).raised = false ∧
    (get_processed_info
        (process_single_video sampleCfg (sampleEnv "f1") "2024-01-01"
          sampleVideo sampleWorld).world.ledger sampleVideo.id).map
      (fun e => e.status) = some "success" ∧
    "./temp_videos/a.mp4" ∉ (process_single_video sampleCfg (sampleEnv "f1")
      "2024-01-01" sampleVideo sampleWorld).world.tempFiles := by
  exact C3_success_entry_cleanup sampleCfg (sampleEnv "f1") "2024-01-01"
    sampleVideo sampleWorld "./temp_videos/a.mp4" "yt1"
    "https://www.youtube.com/watch?v=yt1" rfl rfl rfl (Or.inl rfl)
    (by simp [sampleWorld]) rfl

theorem process_single_ledger (cfg : ProcCfg) (env : VideoEnv) (now : String)
    (v : VideoFile) (w : World) :
    ∃ e, (process_single_video cfg env now v w).world.ledger =
      setEntry w.ledger v.id e := by
  obtain ⟨dres, chunks, nok⟩ := env
  cases dres with
  | error err => exact ⟨_, rfl⟩
  | ok p =>
      simp only [process_single_video]
      cases h : uploadExcept cfg.max_retries chunks with
      | error err => exact ⟨_, rfl⟩
      | ok pr =>
          obtain ⟨vid, url⟩ := pr
          dsimp only
          by_cases hb : (!cfg.skip_notion && !nok) = true
          · rw [if_pos hb]
            exact ⟨_, rfl⟩
          · rw [if_neg hb]
            exact ⟨_, rfl⟩

theorem is_processed_after_single (cfg : ProcCfg) (env : VideoEnv)
    (now : String) (v : VideoFile) (w : World) :
    is_processed (process_single_video cfg env now v w).world.ledger v.id
      = true := by
  obtain ⟨e, he⟩ := process_single_ledger cfg env now v w
  rw [he]
  simp [is_processed, findEntry_setEntry_self]

theorem is_processed_mono_single (cfg : ProcCfg) (env : VideoEnv)
    (now : String) (v : VideoFile) (w : World) (id : String)
    (h : is_processed w.ledger id = true) :
    is_processed (process_single_video cfg env now v w).world.ledger id
      = true := by
  obtain ⟨e, he⟩ := process_single_ledger cfg env now v w
  rw [he]
  exact isProcessed_setEntry_mono w.ledger v.id id e h

theorem process_videos_mono (cfg : ProcCfg) (env : String → VideoEnv)
    (now : String) (sp : Bool) :
    ∀ (videos : List VideoFile) (w : World) (id : String),
      is_processed w.ledger id = true →
      is_processed (process_videos cfg env now sp videos w).world.ledger id
        = true := by
  intro videos
  induction videos with
  | nil =>
      intro w id h
      exact h
  | cons v rest ih =>
      intro w id h
      rw [process_videos]
      by_cases hskip : (sp && is_processed w.ledger v.id) = true
      · rw [if_pos hskip]
        exact ih w id h
      · rw [if_neg hskip]
        by_cases hdry : cfg.dry_run = true
        · rw [if_pos hdry]
          exact ih w id h
        · rw [if_neg hdry]
          exact ih _ id (is_processed_mono_single cfg (env v.id) now v w id h)

theorem process_videos_marks_all (cfg : ProcCfg) (env : String → VideoEnv)
    (now : String) (hdry : cfg.dry_run = false) :
    ∀ (videos : List VideoFile) (w : World) (v : VideoFile), v ∈ videos →
      is_processed (process_videos cfg env now true videos w).world.ledger
        v.id = true := by
  intro videos
  induction videos with
  | nil =>
      intro w v hv
      cases hv
  | cons v0 rest ih =>
      intro w v hv
      rw [process_videos]
      have hndry : ¬ (cfg.dry_run = true) := by
        rw [hdry]
        exact Bool.false_ne_true
      rcases List.mem_cons.mp hv with hveq | hvrest
      · subst hveq
        by_cases hskip : (true && is_processed w.ledger v.id) = true
        · rw [if_pos hskip]
          exact process_videos_mono cfg env now true rest w v.id
            (by simpa using hskip)
        · rw [if_neg hskip, if_neg hndry]
          exact process_videos_mono cfg env now true rest _ v.id
            (is_processed_after_single cfg (env v.id) now v w)
      · by_cases hskip : (true && is_processed w.ledger v0.id) = true
        · rw [if_pos hskip]
          exact ih w v hvrest
        · rw [if_neg hskip, if_neg hndry]
          exact ih _ v hvrest

theorem process_videos_all_skipped (cfg : ProcCfg) (env : String → VideoEnv)
    (now : String) :
    ∀ (videos : List VideoFile) (w : World),
      (∀ v ∈ videos, is_processed w.ledger v.id = true) →
      process_videos cfg env now true videos w =
        { world := w, downloads := 0, uploads := 0, success_count := 0,
          failed_count := 0, skipped_count := videos.length,
          snapshots := [] } := by
  intro videos
  induction videos with
  | nil =>
      intro w _
      rfl
  | cons v rest ih =>
      intro w h
      rw [process_videos]
      have hv : is_processed w.ledger v.id = true :=
        h v (List.mem_cons_self v rest)
      rw [if_pos (by simp [hv])]
      rw [ih w (fun u hu => h u (List.mem_cons_of_mem v hu))]
      rfl

/-- Claim C1: on an unchanged folder (same video list), a second
`process_videos` run with `skip_processed=true` performs zero download and
zero upload attempts — every video of the first run (dry-run off) has a
ledger entry, so the second run takes the skip branch for every listed
video and leaves the world unchanged. -/
theorem C1_second_run_idempotent (cfg : ProcCfg) (env env2 : String → VideoEnv)
    (now now2 : String) (videos : List VideoFile) (w : World)
    (hdry : cfg.dry_run = false) :
    (∀ v ∈ videos,
      is_processed (process_videos cfg env now true videos w).world.ledger
        v.id = true) ∧
    process_videos cfg env2 now2 true videos
        (process_videos cfg env now true videos w).world =
      { world := (process_videos cfg env now true videos w).world,
        downloads := 0, uploads := 0, success_count := 0, failed_count := 0,
        skipped_count := videos.length, snapshots := [] } := by
  have hall := process_videos_marks_all cfg env now hdry videos w
  exact ⟨hall, process_videos_all_skipped cfg env2 now2 videos _ hall⟩

/-- Claim C1 witness: one benign video, empty starting world. -/
theorem C1_second_run_idempotent_witness :
    (∀ v ∈ [sampleVideo],
      is_processed
        (process_videos sampleCfg sampleEnv "t1" true [sampleVideo]
          sampleWorld).world.ledger v.id = true) ∧
    process_videos sampleCfg sampleEnv "t2" true [sampleVideo]
        (process_videos sampleCfg sampleEnv "t1" true [sampleVideo]
          sampleWorld).world =
      { world := (process_videos sampleCfg sampleEnv "t1" true [sampleVideo]
          sampleWorld).world,
        downloads := 0, uploads := 0, success_count := 0, failed_count := 0,
        skipped_count := [sampleVideo].length, snapshots := [] } :=
  C1_second_run_idempotent sampleCfg sampleEnv sampleEnv "t1" "t2"
    [sampleVideo] sampleWorld rfl

theorem findEntry_mem (m : Ledger) (id : String) (e : LedgerEntry)
    (h : findEntry m id = some e) : (id, e) ∈ m := by
  induction m with
  | nil => simp [findEntry] at h
  | cons hd tl ih =>
      obtain ⟨k, e0⟩ := hd
      by_cases hk : k = id
      · subst hk
        have he : e0 = e := by simpa [findEntry] using h
        subst he
        exact List.mem_cons_self _ _
      · exact List.mem_cons_of_mem _ (ih (by simpa [findEntry, hk] using h))

theorem remove_preserves_none (m : Ledger) (k id : String)
    (h : findEntry m id = none) :
    findEntry (remove_processed m k).2.1 id = none := by
  rw [remove_processed]
  by_cases hk : (findEntry m k).isSome = true
  · rw [if_pos hk]
    show findEntry (eraseEntry m k) id = none
    by_cases hid : id = k
    · subst hid
      exact findEntry_eraseEntry_self m id
    · rw [findEntry_eraseEntry_ne m k id hid]
      exact h
  · rw [if_neg hk]
    exact h

theorem foldl_remove_none (id : String) :
    ∀ (L : List (String × LedgerEntry)) (m : Ledger),
      findEntry m id = none →
      findEntry (L.foldl (fun acc p => (remove_processed acc p.1).2.1) m) id
        = none := by
  intro L
  induction L with
  | nil =>
      intro m h
      exact h
  | cons q L ih =>
      intro m h
      rw [List.foldl_cons]
      exact ih _ (remove_preserves_none m q.1 id h)

theorem foldl_remove_kills (id : String) :
    ∀ (L : List (String × LedgerEntry)) (m : Ledger),
      (∃ q ∈ L, q.1 = id) →
      findEntry (L.foldl (fun acc p => (remove_processed acc p.1).2.1) m) id
        = none := by
  intro L
  induction L with
  | nil =>
      intro m h
      rcases h with ⟨q, hq, _⟩
      cases hq
  | cons q L ih =>
      intro m h
      rw [List.foldl_cons]
      rcases h with ⟨r, hr, hr1⟩
      rcases List.mem_cons.mp hr with hrq | hrL
      · subst hrq
        refine foldl_remove_none id L _ ?_
        rw [← hr1]
        rw [remove_processed]
        by_cases hk : (findEntry m r.1).isSome = true
        · rw [if_pos hk]
          show findEntry (eraseEntry m r.1) r.1 = none
          exact findEntry_eraseEntry_self m r.1
        · rw [if_neg hk]
          show findEntry m r.1 = none
          rcases hfe : findEntry m r.1 with _ | e
          · rfl
          · rw [hfe] at hk
            simp at hk
      · exact ih _ ⟨r, hrL, hr1⟩

/-- Claim C9: `is_processed` is bare key membership — true for an entry of
any status — so a video whose previous run ended with status="failed" is
skipped by a plain re-run with `skip_processed=true` (no download/upload
attempt, world untouched), and `retry_failed`'s removal phase deletes the
failed entries so that `is_processed` then returns false for them. -/
theorem C9_failed_entries_skipped (m : Ledger) (id : String) (cfg : ProcCfg)
    (env : String → VideoEnv) (now : String) (w : World) (v : VideoFile) :
    (∀ e, findEntry m id = some e → is_processed m id = true) ∧
    (∀ e, findEntry w.ledger v.id = some e →
      process_videos cfg env now true [v] w =
        { world := w, downloads := 0, uploads := 0, success_count := 0,
          failed_count := 0, skipped_count := 1, snapshots := [] }) ∧
    (∀ e, findEntry m id = some e → e.status = "failed" →
      findEntry (retry_failed_removals m) id = none) := by
  refine ⟨?_, ?_, ?_⟩
  · intro e he
    simp [is_processed, he]
  · intro e he
    have hall : ∀ u ∈ [v], is_processed w.ledger u.id = true := by
      intro u hu
      rcases List.mem_cons.mp hu with hu1 | hu2
      · subst hu1
        simp [is_processed, he]
      · cases hu2
    exact process_videos_all_skipped cfg env now [v] w hall
  · intro e he hs
    have hmem : (id, e) ∈ m := findEntry_mem m id e he
    have hfl : (id, e) ∈ list_failed m :=
      List.mem_filter.mpr ⟨hmem, by simp [hs]⟩
    exact foldl_remove_kills id (list_failed m) m ⟨(id, e), hfl, rfl⟩

/-- Claim C9 witness: a ledger holding one failed entry; the matching video
is skipped by a re-run and unblocked by `retry_failed`'s removal phase. -/
theorem C9_failed_entries_skipped_witness :
    is_processed [("f2", sampleEntryFailed)] "f2" = true ∧
    process_videos sampleCfg sampleEnv "t1" true
        [{ sampleVideo with id := "f2" }]
        { ledger := [("f2", sampleEntryFailed)], tempFiles := [] } =
      { world := { ledger := [("f2", sampleEntryFailed)], tempFiles := [] },
        downloads := 0, uploads := 0, success_count := 0, failed_count := 0,
        skipped_count := 1, snapshots := [] } ∧
    findEntry (retry_failed_removals [("f2", sampleEntryFailed)]) "f2"
      = none := by
  have h := C9_failed_entries_skipped [("f2", sampleEntryFailed)] "f2"
    sampleCfg sampleEnv "t1"
    { ledger := [("f2", sampleEntryFailed)], tempFiles := [] }
    { sampleVideo with id := "f2" }
  exact ⟨h.1 sampleEntryFailed rfl, h.2.1 sampleEntryFailed rfl,
    h.2.2 sampleEntryFailed rfl rfl⟩

end Uploader
